import Mathlib

/-!
Verification of the iqunet/sern example scripts.

The repository is a collection of Python scripts that pull historical
sensor samples from a remote OPC-UA / GraphQL service and post-process
them (high-pass filtering, windowed FFT).  This file gives a shallow
embedding of the algorithmic parts:

* the paginated history reader `readHistory` / `readHistory2`
  (src/OPCuaGetVibrationData.py),
* the bounded downloader `DataAcquisition.download_endnode`
  (src/examples/OPCuaGetVibrationDataStruct.py),
* the retry/reconnect wrappers `Decorators.autoConnectingClient`
  (sync variant in OPCuaGetVibrationDataStruct.py, async variant in
  examples/OPCuaGetVibrationData.py, GraphQL variant in
  examples/GraphQLGetVibrationData.py),
* the signal-conditioning helpers `HighPassFilter.perform_hpf_filtering`
  and `FourierTransform.perform_fft_windowed`
  (src/examples/OPCuaGetVibrationData.py, GraphQLGetVibrationData.py).

Remote servers and numeric library kernels (scipy filters, np.fft) are
external collaborators; they are modelled as function parameters.
Timestamps are modelled as integers counting microseconds, so the
`datetime.timedelta(microseconds=1)` arithmetic of the source becomes
`± 1`.
-/

namespace Sern

/-- One OPC-UA `DataValue` as used by the scripts: the payload
(`sample.Value.Value`) and the two distinct timestamp fields
(`sample.SourceTimestamp`, `sample.ServerTimestamp`), in microseconds. -/
structure DataValue where
  value : ℤ
  sourceTimestamp : ℤ
  serverTimestamp : ℤ
deriving DecidableEq, Repr

/-- One history page request issued to the server: the `starttime`,
`endtime` and `numvalues` arguments of `read_raw_history`. -/
structure HReq where
  start : Option ℤ
  stop : Option ℤ
  num : ℕ
deriving DecidableEq, Repr

/-- Result of a run of `readHistory`: the returned `(values, dates)`
pair together with the trace of page requests issued to the server. -/
structure HistOut where
  values : List ℤ
  dates : List ℤ
  log : List HReq
deriving DecidableEq, Repr

/-- The remote history collaborator of `readHistory`: `readRawHistory`
as a pure function of the request parameters. -/
abbrev Server := Option ℤ → Option ℤ → ℕ → List DataValue

/-- The Python guard `if starttime and endtime and starttime > endtime`
(datetime objects are always truthy, so truthiness = presence). -/
def startGtEnd : Option ℤ → Option ℤ → Bool
  | some s, some e => decide (s > e)
  | _, _ => false

/-- The `while numValues > 0` loop of `readHistory`
(src/OPCuaGetVibrationData.py, lines 21-45).  Each iteration requests
`min(numValues, 1024)` samples; an empty page breaks; otherwise the
samples' payloads and source timestamps are appended and the cursor is
moved: with no `starttime` the new `endtime` is the last sample's
server timestamp minus 1 µs, otherwise the new `starttime` is the last
sample's server timestamp plus 1 µs.  `dvArr[-1]` is rendered as
`getLastD` guarded by nonemptiness.  `numValues` is a Python int that
the loop only decrements and compares with 0, so truncated `ℕ`
subtraction is observationally equivalent. -/
def readHistoryAux (server : Server) : Option ℤ → Option ℤ → ℕ → HistOut
  | _, _, 0 => ⟨[], [], []⟩
  | starttime, endtime, n + 1 =>
    if startGtEnd starttime endtime then ⟨[], [], []⟩
    else
      let req : HReq := ⟨starttime, endtime, min (n + 1) 1024⟩
      let dvArr := server starttime endtime (min (n + 1) 1024)
      if h : dvArr = [] then ⟨[], [], [req]⟩
      else
        let lastDv := dvArr.getLastD ⟨0, 0, 0⟩
        let rest :=
          if starttime = none then
            readHistoryAux server none
              (some (lastDv.serverTimestamp - 1)) (n + 1 - dvArr.length)
          else
            readHistoryAux server
              (some (lastDv.serverTimestamp + 1)) endtime (n + 1 - dvArr.length)
        ⟨dvArr.map (·.value) ++ rest.values,
         dvArr.map (·.sourceTimestamp) ++ rest.dates,
         req :: rest.log⟩
termination_by _ _ n => n
decreasing_by
  all_goals
    have hl : 0 < (server starttime endtime (min (n + 1) 1024)).length :=
      List.length_pos.mpr h
    omega

/-- `readHistory` (src/OPCuaGetVibrationData.py): run the pagination
loop, then — because the loop variable `starttime` is `None` exactly
when the caller's `startTime` was `None` — reverse the accumulated
sequences in backward mode and return `(values, dates)`. -/
def readHistory (server : Server) (startTime endTime : Option ℤ)
    (numValues : ℕ) : HistOut :=
  let acc := readHistoryAux server startTime endTime numValues
  match startTime with
  | none => ⟨acc.values.reverse, acc.dates.reverse, acc.log⟩
  | some _ => acc

/-- `readHistory2` (src/OPCuaGetVibrationData.py, lines 74-97): single
unpaginated request.  When `startTime > endTime` the source executes a
bare `return`, i.e. it produces Python `None` instead of a pair; this
is modelled by the `Option` layer being `none`.  The request log is
returned alongside. -/
def readHistory2 (server : Server) (startTime endTime : Option ℤ)
    (numValues : ℕ) : Option (List ℤ × List ℤ) × List HReq :=
  if startGtEnd startTime endTime then (none, [])
  else
    let dvArr := server startTime endTime numValues
    let values := dvArr.map (·.value)
    let dates := dvArr.map (·.sourceTimestamp)
    match startTime with
    | none => (some (values.reverse, dates.reverse), [⟨startTime, endTime, numValues⟩])
    | some _ => (some (values, dates), [⟨startTime, endTime, numValues⟩])

/-- Page returned by the remote collaborator for a logged request. -/
def pageOf (server : Server) (r : HReq) : List DataValue :=
  server r.start r.stop r.num

/-- Relation between two consecutive backward-mode page requests of
`readHistory`: the earlier request returned a nonempty page, the next
request still has no `starttime`, and its `endtime` is the page's last
sample's *server* timestamp minus one microsecond. -/
def backStep (server : Server) (r1 r2 : HReq) : Prop :=
  pageOf server r1 ≠ [] ∧ r2.start = none ∧
    r2.stop = (pageOf server r1).getLast?.map (fun dv => dv.serverTimestamp - 1)

/-- Relation between two consecutive forward-mode page requests of
`readHistory`: the earlier request returned a nonempty page, the next
request keeps the caller's `endtime`, and its `starttime` is the
page's last sample's *server* timestamp plus one microsecond. -/
def forwardStep (server : Server) (endT : Option ℤ) (r1 r2 : HReq) : Prop :=
  pageOf server r1 ≠ [] ∧ r2.stop = endT ∧
    r2.start = (pageOf server r1).getLast?.map (fun dv => dv.serverTimestamp + 1)

/-! ## Retry / reconnect wrappers (`Decorators.autoConnectingClient`)

The wrapped method and `obj.reconnect()` are external collaborators;
they are modelled as functions from the invocation counter to an
`Except` outcome, so that "fails twice then succeeds" style behaviours
are expressible.  The wrapper produces the final outcome together with
the trace of observable events: wrapped-method invocations, executed
reconnects, and backoff sleeps. -/

/-- Python exception classification used by the wrappers:
`ua.uaerrors.BadNoMatch`, `ConnectionRefusedError`, anything else. -/
inductive PyExc where
  | badNoMatch
  | connectionRefused
  | other (code : ℕ)
deriving DecidableEq, Repr

/-- Observable events of one wrapper run. -/
inductive Ev where
  | call
  | reconnect
  | sleep (secs : ℕ)
deriving DecidableEq, Repr

/-- `OpcUaClient.MAX_RETRIES` / `GraphQLClient.MAX_RETRIES`. -/
def MAX_RETRIES : ℕ := 3

/-- `OpcUaClient.RETRY_DELAY` / `GraphQLClient.RETRY_DELAY` (seconds). -/
def RETRY_DELAY : ℕ := 10

/-- The retry loop of `OpcUaClient.Decorators.autoConnectingClient`
(src/examples/OPCuaGetVibrationDataStruct.py, lines 21-43, synchronous).
`fuel` is the number of `for retry in range(MAX_RETRIES)` iterations
left; `nCalls`/`nRecs` count wrapped-method and reconnect invocations.
A guarded attempt that raises `BadNoMatch` re-raises it immediately;
any other exception is swallowed, then `obj.reconnect()` runs: if it
raises `ConnectionRefusedError` the wrapper sleeps `RETRY_DELAY`
seconds, if it raises anything else that exception propagates.  When
the loop completes without returning, the `for`-`else` branch performs
one unguarded reconnect plus invocation. -/
def opcLoop (method : ℕ → Except PyExc α) (rec : ℕ → Except PyExc Unit) :
    ℕ → ℕ → ℕ → Except PyExc α × List Ev
  | nCalls, nRecs, 0 =>
    match rec nRecs with
    | .error e => (.error e, [.reconnect])
    | .ok _ =>
      match method nCalls with
      | .ok v => (.ok v, [.reconnect, .call])
      | .error e => (.error e, [.reconnect, .call])
  | nCalls, nRecs, fuel + 1 =>
    match method nCalls with
    | .ok v => (.ok v, [.call])
    | .error .badNoMatch => (.error .badNoMatch, [.call])
    | .error _ =>
      match rec nRecs with
      | .ok _ =>
        let r := opcLoop method rec (nCalls + 1) (nRecs + 1) fuel
        (r.1, .call :: .reconnect :: r.2)
      | .error .connectionRefused =>
        let r := opcLoop method rec (nCalls + 1) (nRecs + 1) fuel
        (r.1, .call :: .reconnect :: .sleep RETRY_DELAY :: r.2)
      | .error e => (.error e, [.call, .reconnect])

/-- `autoConnectingClient` of OPCuaGetVibrationDataStruct.py applied to
a wrapped method: run the guarded loop `MAX_RETRIES` times, then the
unguarded `for`-`else` attempt. -/
def opcAutoConnectingClient (method : ℕ → Except PyExc α)
    (rec : ℕ → Except PyExc Unit) : Except PyExc α × List Ev :=
  opcLoop method rec 0 0 MAX_RETRIES

/-- The retry loop of the async `OpcUaClient.Decorators.autoConnectingClient`
(src/examples/OPCuaGetVibrationData.py, lines 118-142).  Identical
shape, but `obj.reconnect()` is called *without* `await` on an async
`reconnect` coroutine function: the call merely allocates a coroutine
object, never runs it and never raises, so no reconnect is executed
and the `ConnectionRefusedError`/sleep branch is unreachable.  The
`for`-`else` branch likewise performs no real reconnect before the
final `await wrappedMethod(...)`. -/
def asyncOpcLoop (method : ℕ → Except PyExc α) :
    ℕ → ℕ → Except PyExc α × List Ev
  | nCalls, 0 =>
    match method nCalls with
    | .ok v => (.ok v, [.call])
    | .error e => (.error e, [.call])
  | nCalls, fuel + 1 =>
    match method nCalls with
    | .ok v => (.ok v, [.call])
    | .error .badNoMatch => (.error .badNoMatch, [.call])
    | .error _ =>
      let r := asyncOpcLoop method (nCalls + 1) fuel
      (r.1, .call :: r.2)

/-- The async wrapper applied to a wrapped method. -/
def asyncOpcAutoConnectingClient (method : ℕ → Except PyExc α) :
    Except PyExc α × List Ev :=
  asyncOpcLoop method 0 MAX_RETRIES

/-- The retry loop of `GraphQLClient.Decorators.autoConnectingClient`
(src/examples/GraphQLGetVibrationData.py, lines 124-148): same shape as
the synchronous OPC-UA wrapper but with *no* `BadNoMatch` arm — every
exception from the wrapped method is swallowed and retried. -/
def gqlLoop (method : ℕ → Except PyExc α) (rec : ℕ → Except PyExc Unit) :
    ℕ → ℕ → ℕ → Except PyExc α × List Ev
  | nCalls, nRecs, 0 =>
    match rec nRecs with
    | .error e => (.error e, [.reconnect])
    | .ok _ =>
      match method nCalls with
      | .ok v => (.ok v, [.reconnect, .call])
      | .error e => (.error e, [.reconnect, .call])
  | nCalls, nRecs, fuel + 1 =>
    match method nCalls with
    | .ok v => (.ok v, [.call])
    | .error _ =>
      match rec nRecs with
      | .ok _ =>
        let r := gqlLoop method rec (nCalls + 1) (nRecs + 1) fuel
        (r.1, .call :: .reconnect :: r.2)
      | .error .connectionRefused =>
        let r := gqlLoop method rec (nCalls + 1) (nRecs + 1) fuel
        (r.1, .call :: .reconnect :: .sleep RETRY_DELAY :: r.2)
      | .error e => (.error e, [.call, .reconnect])

/-- The GraphQL wrapper applied to a wrapped method (guards
`execute_query` among others). -/
def gqlAutoConnectingClient (method : ℕ → Except PyExc α)
    (rec : ℕ → Except PyExc Unit) : Except PyExc α × List Ev :=
  gqlLoop method rec 0 0 MAX_RETRIES

/-- A reconnect collaborator outcome the wrapper recovers from:
either the reconnect succeeded or it raised `ConnectionRefusedError`
(which only causes a backoff sleep). -/
def Recoverable (r : Except PyExc Unit) : Prop :=
  r = .ok () ∨ r = .error .connectionRefused

/-! ## Bounded continuation-token downloader
(`DataAcquisition.download_endnode`,
src/examples/OPCuaGetVibrationDataStruct.py, lines 251-288). -/

/-- The remote collaborator of `download_endnode`:
`client.read_raw_history` as a pure function of
`(starttime, endtime, numvalues, cont)` returning
`(DataValues, ContinuationPoint)`.  Continuation tokens are opaque
naturals. -/
abbrev Server2 := Option ℤ → Option ℤ → ℕ → Option ℕ → List DataValue × Option ℕ

/-- One entry of the downloader's request trace: how many samples the
request asked for and how many the page returned. -/
structure PageLog where
  asked : ℕ
  got : ℕ
deriving DecidableEq, Repr

/-- `DataAcquisition.MAX_VALUES_PER_ENDNODE` in the source. -/
def MAX_VALUES_PER_ENDNODE : ℕ := 100

/-- `DataAcquisition.MAX_VALUES_PER_REQUEST` in the source. -/
def MAX_VALUES_PER_REQUEST : ℕ := 2

/-- The `while True` loop of `download_endnode`, with the two class
constants `MAX_VALUES_PER_ENDNODE` (total limit) and
`MAX_VALUES_PER_REQUEST` (per-request cap) abstracted as the
parameters `total` and `cap`.  Each iteration requests
`min(cap, total - len(dvList))` samples at the current continuation
token; it stops when a page is empty, when the server returns no
continuation point, or when `len(dvList) >= total`.  `remaining` is
asserted nonnegative in the source; `ℕ` subtraction matches. -/
def downloadAux (total cap : ℕ) (srv : Server2) (st et : Option ℤ)
    (acc : List DataValue) (cont : Option ℕ) : List DataValue × List PageLog :=
  let remaining := total - acc.length
  let numvalues := min cap remaining
  let res := srv st et numvalues cont
  if h : res.1 = [] then (acc, [⟨numvalues, 0⟩])
  else
    let acc2 := acc ++ res.1
    if res.2 = none then (acc2, [⟨numvalues, res.1.length⟩])
    else if total ≤ acc2.length then (acc2, [⟨numvalues, res.1.length⟩])
    else
      let r := downloadAux total cap srv st et acc2 res.2
      (r.1, ⟨numvalues, res.1.length⟩ :: r.2)
termination_by total - acc.length
decreasing_by
  have hl : 0 < (srv st et (min cap (total - acc.length)) cont).1.length :=
    List.length_pos.mpr h
  simp only [acc2, res, numvalues, remaining, List.length_append] at *
  omega

/-- `download_endnode` with the class constants as parameters: start
with an empty accumulator and no continuation token. -/
def download_endnode (total cap : ℕ) (srv : Server2) (st et : Option ℤ) :
    List DataValue × List PageLog :=
  downloadAux total cap srv st et [] none

/-! ## High-pass filtering (`HighPassFilter`,
src/examples/OPCuaGetVibrationData.py lines 16-50 and
src/examples/GraphQLGetVibrationData.py lines 22-56).

Sample sequences are rational lists.  The scipy Butterworth /
`filtfilt` kernel is an external numeric collaborator, modelled as an
opaque function of `(order, lowcut, sampleRate, data)`. -/

/-- Opaque stand-in for `scipy.signal.butter` + `scipy.signal.filtfilt`
with even reflection padding. -/
abbrev FiltFilt := ℕ → ℚ → ℚ → List ℚ → List ℚ

/-- `run_highpass_filter`: at or above the Nyquist frequency
(`lowcut >= sampleRate/2.0`) return `data*0.0`, the all-zero sequence
of the same length; otherwise run the zero-phase filter kernel. -/
def run_highpass_filter (φ : FiltFilt) (data : List ℚ)
    (lowcut sampleRate : ℚ) (order : ℕ) : List ℚ :=
  if sampleRate / 2 ≤ lowcut then data.map (fun _ => 0)
  else φ order lowcut sampleRate data

/-- Python `int()` truncation toward zero on a rational. -/
def pyInt (q : ℚ) : ℤ :=
  Int.tdiv q.num (q.den : ℤ)

/-- The index trace of the Python slice `data[13:7:-1]`: indices 13
down to 8; indices beyond the end of the list simply do not occur
(Python clamps the slice). -/
def settleSrcIdx : List ℕ := [13, 12, 11, 10, 9, 8]

/-- Effect of the in-place slice assignment
`data[0:6] = data[13:7:-1]` ("skip compressor settling") on a Python
list: the first `min 6 len` elements are removed and the (clamped)
mirrored slice is spliced in front. -/
def mirrorSettling (data : List ℚ) : List ℚ :=
  (settleSrcIdx.filterMap fun i => data.get? i) ++ data.drop 6

/-- `perform_hpf_filtering(data, sampleRate, hpf)`.  Python lists are
passed by reference and the slice assignment mutates the caller's
list, while the two `run_highpass_filter` stages rebind the local name
only; the state is made explicit by returning
`(caller's buffer after the call, returned sequence)`. -/
def perform_hpf_filtering (φ : FiltFilt) (data : List ℚ)
    (sampleRate hpf : ℚ) : List ℚ × List ℚ :=
  if hpf = 0 then (data, data)
  else
    let data1 := mirrorSettling data
    let data2 := run_highpass_filter φ data1 3 sampleRate 1
    let data3 := run_highpass_filter φ data2 ((pyInt hpf : ℤ) : ℚ) sampleRate 2
    (data1, data3)

/-! ## Windowed FFT (`FourierTransform.perform_fft_windowed`,
src/examples/OPCuaGetVibrationData.py lines 52-111).

Complex samples are pairs `(re, im)` of rationals.  The numpy / scipy
kernels (`get_window`, `detrend`, `np.fft.fft`) and the real-valued
`np.sqrt` / `np.log10` used by the output modes are external numeric
collaborators, bundled in `FFTColl`; the structure of the estimator
(padding, segmentation, accumulation, one-sided selection, doubling,
frequency axis) is embedded concretely. -/

/-- External numeric collaborators of `perform_fft_windowed`. -/
structure FFTColl where
  getWindow : String → ℕ → List ℚ
  detrendF : List (ℚ × ℚ) → List (ℚ × ℚ)
  fft : List (ℚ × ℚ) → ℕ → List (ℚ × ℚ)
  sqrtF : ℚ → ℚ
  log10F : ℚ → ℚ

/-- The four admissible `mode` strings:
`'lin' | 'log' | 'magnitudeRMS' | 'magnitudePeak'`. -/
inductive FFTMode where
  | lin
  | log
  | magnitudeRMS
  | magnitudePeak
deriving DecidableEq, Repr

/-- `np.iscomplex` count is zero: no element has a nonzero imaginary
component. -/
def isRealSignal (s : List (ℚ × ℚ)) : Bool :=
  s.all fun z => z.2 = 0

/-- Zero-pad the signal to the window length if it is shorter
(`np.pad(signal, (0, padding), 'constant')`). -/
def padSignal (signal : List (ℚ × ℚ)) (wlen : ℕ) : List (ℚ × ℚ) :=
  if signal.length < wlen then
    signal ++ List.replicate (wlen - signal.length) (0, 0)
  else signal

/-- Banker's rounding (round half to even), the rounding rule of
`np.round`. -/
def roundHalfToEven (q : ℚ) : ℤ :=
  let f := ⌊q⌋
  let r := q - (f : ℚ)
  if r < 1 / 2 then f
  else if 1 / 2 < r then f + 1
  else if Even f then f else f + 1

/-- `np.round(x, 2)`: round to two decimal places, half to even. -/
def pyRound2 (q : ℚ) : ℚ :=
  ((roundHalfToEven (q * 100) : ℤ) : ℚ) / 100

/-- Body of the power-spectrum loop for segment `i`: slice the segment
at offset `i * step`, optionally detrend it, multiply by the window,
run the FFT kernel, divide by `len(w)`, and take the squared magnitude
over the squared coherent gain factor (`abs(z/g)^2 = (re/g)^2 +
(im/g)^2` for a real `g`). -/
def fftSegmentPower (E : FFTColl) (w : List ℚ) (cg : ℚ)
    (signalP : List (ℚ × ℚ)) (step : ℕ) (detrend : Bool) (i : ℕ) : List ℚ :=
  let segment := (signalP.drop (i * step)).take w.length
  let segment := if detrend then E.detrendF segment else segment
  let winData := List.zipWith (fun z r => (z.1 * r, z.2 * r)) segment w
  let fftData := (E.fft winData w.length).map
    (fun z => (z.1 / (w.length : ℚ), z.2 / (w.length : ℚ)))
  fftData.map (fun z => (z.1 / cg) ^ 2 + (z.2 / cg) ^ 2)

/-- The power-spectrum accumulation loop of `perform_fft_windowed`:
`k` overlapped segments, each contributing `fftSegmentPower`, summed
into `spec` (initially `np.zeros(len(w))`) and finally divided by `k`.
This is `spec` just before the one-sided selection. -/
def fftRawSpec (E : FFTColl) (signal : List (ℚ × ℚ))
    (winSize nOverlap : ℕ) (windowName : String) (detrend : Bool) : List ℚ :=
  let w := E.getWindow windowName winSize
  let coherentGainScaleFactor : ℚ := w.sum / (winSize : ℚ)
  let signalP := padSignal signal w.length
  let step := w.length - nOverlap
  let k := (signalP.length - nOverlap) / step
  let spec := (List.range k).foldl
    (fun spec i =>
      List.zipWith (· + ·) spec
        (fftSegmentPower E w coherentGainScaleFactor signalP step detrend i))
    (List.replicate w.length 0)
  spec.map (· / (k : ℚ))

/-- Number of retained spectrum bins: `ceil(len(w)/2)` for a signal
with no imaginary component (checked on the padded signal, as in the
source), the full `len(w)` otherwise. -/
def fftStop (E : FFTColl) (signal : List (ℚ × ℚ)) (winSize : ℕ)
    (windowName : String) : ℕ :=
  let w := E.getWindow windowName winSize
  if isRealSignal (padSignal signal w.length) then (w.length + 1) / 2
  else w.length

/-- `spec[1:stop-1] = 2*spec[1:stop-1]`: double the bins strictly
between the DC bin (index 0) and bin `stop-1`, walking the list with
its index. -/
def doubleInterior (stop : ℕ) : ℕ → List ℚ → List ℚ
  | _, [] => []
  | i, x :: xs =>
    (if 1 ≤ i ∧ i < stop - 1 then 2 * x else x) :: doubleInterior stop (i + 1) xs

/-- The retained spectrum `spec[0:stop]` after the conditional
one-sided doubling. -/
def fftSelectedSpec (E : FFTColl) (signal : List (ℚ × ℚ))
    (winSize nOverlap : ℕ) (windowName : String) (detrend : Bool) : List ℚ :=
  let w := E.getWindow windowName winSize
  let raw := fftRawSpec E signal winSize nOverlap windowName detrend
  let stop := fftStop E signal winSize windowName
  let spec2 := if isRealSignal (padSignal signal w.length)
    then doubleInterior stop 0 raw else raw
  spec2.take stop

/-- The frequency axis
`np.round(float(fs)/len(w) * np.arange(0, stop), 2)`. -/
def fftFreq (E : FFTColl) (signal : List (ℚ × ℚ)) (winSize : ℕ)
    (windowName : String) (fs : ℚ) : List ℚ :=
  let w := E.getWindow windowName winSize
  let stop := fftStop E signal winSize windowName
  (List.range stop).map fun i : ℕ => pyRound2 (fs / (w.length : ℚ) * (i : ℚ))

/-- `perform_fft_windowed(signal, fs, winSize, nOverlap, window,
detrend, mode)`: `none` models the `assert(nOverlap < winSize)`
failure (the mode assertion cannot fail, `FFTMode` being exactly the
admissible set); otherwise the selected spectrum is post-processed by
the chosen mode and returned with the frequency axis. -/
def perform_fft_windowed (E : FFTColl) (signal : List (ℚ × ℚ)) (fs : ℚ)
    (winSize nOverlap : ℕ) (windowName : String) (detrend : Bool)
    (mode : FFTMode) : Option (List ℚ × List ℚ) :=
  if ¬ nOverlap < winSize then none
  else
    let spec := fftSelectedSpec E signal winSize nOverlap windowName detrend
    let freq := fftFreq E signal winSize windowName fs
    some (match mode with
      | .lin => (spec, freq)
      | .log => (spec.map fun x => 10 * E.log10F x, freq)
      | .magnitudeRMS => (spec.map E.sqrtF, freq)
      | .magnitudePeak => (spec.map fun x => E.sqrtF (2 * x), freq))

/-! ## Concrete collaborators used in scenarios -/

/-- A history collaborator holding no samples at all. -/
def srvNull : Server := fun _ _ _ => []

/-- Twenty-five samples, sample `i` carrying value and timestamps `i`. -/
def scenSamples : List DataValue :=
  (List.range 25).map fun i : ℕ => ⟨(i : ℤ), (i : ℤ), (i : ℤ)⟩

/-- An honest continuation-token collaborator over `scenSamples`: the
token is the index of the next unserved sample; a request returns the
next `numvalues` samples and `None` once the store is exhausted. -/
def scenServer : Server2 := fun _ _ numvalues cont =>
  let idx := cont.getD 0
  let page := (scenSamples.drop idx).take numvalues
  (page, if idx + page.length < 25 then some (idx + page.length) else none)

/-- A continuation-token collaborator holding no samples. -/
def srv2Null : Server2 := fun _ _ _ _ => ([], none)

/-- A wrapped method failing twice with a generic fault, then
succeeding. -/
def mFail2 : ℕ → Except PyExc ℤ := fun i =>
  if i < 2 then .error (.other 7) else .ok 42

/-- The generic-fault classification of `mFail2`'s failures. -/
def excOther7 : ℕ → PyExc := fun _ => .other 7

/-- A wrapped method that always raises `BadNoMatch`. -/
def mNoMatch : ℕ → Except PyExc ℤ := fun _ => .error .badNoMatch

/-- A reconnect collaborator that always succeeds. -/
def recOk : ℕ → Except PyExc Unit := fun _ => .ok ()

/-- Identity filter kernel (placeholder collaborator). -/
def φId : FiltFilt := fun _ _ _ data => data

/-- The sample list `0, 1, …, 14`. -/
def data15 : List ℚ := (List.range 15).map fun i : ℕ => ((i : ℚ))

/-- Placeholder numeric collaborators honouring the shape contracts:
rectangular window, identity detrend, constant unit spectrum FFT,
identity scalar maps. -/
def fftCollId : FFTColl :=
  ⟨fun _ n => List.replicate n 1,
   fun s => s,
   fun _ n => List.replicate n (1, 0),
   fun q => q,
   fun q => q⟩

/-- A real-valued eight-sample test signal. -/
def signal8 : List (ℚ × ℚ) :=
  (List.range 8).map fun i : ℕ => ((i : ℚ), (0 : ℚ))

/-! ## Helper lemmas -/

lemma getLast?_eq_some_getLastD {α : Type} (l : List α) (d : α) (h : l ≠ []) :
    l.getLast? = some (l.getLastD d) := by
  rw [List.getLast?_eq_getLast_of_ne_nil h, List.getLastD_eq_getLast?,
    List.getLast?_eq_getLast_of_ne_nil h]
  rfl

lemma readHistoryAux_log_head (server : Server) (st et : Option ℤ) (n : ℕ) :
    (readHistoryAux server st et n).log.head? = none ∨
    (readHistoryAux server st et n).log.head? = some ⟨st, et, min n 1024⟩ := by
  cases n with
  | zero => left; simp [readHistoryAux]
  | succ m =>
    rw [readHistoryAux]
    by_cases hg : startGtEnd st et
    · left; simp [hg]
    · by_cases hemp : server st et (min (m + 1) 1024) = []
      · right; simp [hg, hemp]
      · right; simp [hg, hemp]

lemma readHistoryAux_back_chain (server : Server) :
    ∀ (n : ℕ) (et : Option ℤ),
      List.Chain' (backStep server) (readHistoryAux server none et n).log := by
  intro n
  induction n using Nat.strong_induction_on with
  | _ n ih =>
    intro et
    match n with
    | 0 => simp [readHistoryAux]
    | (m : ℕ) + 1 =>
      rw [readHistoryAux]
      have hg : startGtEnd none et = false := rfl
      by_cases hemp : server none et (min (m + 1) 1024) = []
      · simp [hg, hemp]
      · have hlen : 0 < (server none et (min (m + 1) 1024)).length :=
          List.length_pos.mpr hemp
        simp only [hg, Bool.false_eq_true, if_false, hemp, reduceDIte, reduceIte,
          if_true]
        rw [List.chain'_cons']
        constructor
        · intro y hy
          rcases readHistoryAux_log_head server none
              (some (((server none et (min (m + 1) 1024)).getLastD
                ⟨0, 0, 0⟩).serverTimestamp - 1))
              (m + 1 - (server none et (min (m + 1) 1024)).length)
            with hh | hh
          · rw [hh] at hy; cases hy
          · rw [hh] at hy
            have hy' : (⟨none,
                some (((server none et (min (m + 1) 1024)).getLastD
                  ⟨0, 0, 0⟩).serverTimestamp - 1),
                min (m + 1 - (server none et (min (m + 1) 1024)).length) 1024⟩ : HReq)
                = y := by
              simpa using hy
            subst hy'
            refine ⟨hemp, rfl, ?_⟩
            show some _ = _
            rw [show pageOf server ⟨none, et, min (m + 1) 1024⟩
                = server none et (min (m + 1) 1024) from rfl]
            rw [getLast?_eq_some_getLastD _ ⟨0, 0, 0⟩ hemp]
            simp
        · exact ih (m + 1 - (server none et (min (m + 1) 1024)).length) (by omega) _

lemma readHistoryAux_forward_chain (server : Server) :
    ∀ (n : ℕ) (s : ℤ) (et : Option ℤ),
      List.Chain' (forwardStep server et) (readHistoryAux server (some s) et n).log := by
  intro n
  induction n using Nat.strong_induction_on with
  | _ n ih =>
    intro s et
    match n with
    | 0 => simp [readHistoryAux]
    | (m : ℕ) + 1 =>
      rw [readHistoryAux]
      by_cases hg : startGtEnd (some s) et
      · simp [hg]
      · by_cases hemp : server (some s) et (min (m + 1) 1024) = []
        · simp [hg, hemp]
        · have hlen : 0 < (server (some s) et (min (m + 1) 1024)).length :=
            List.length_pos.mpr hemp
          simp only [hg, Bool.false_eq_true, if_false, hemp, reduceDIte, reduceIte,
            reduceCtorEq]
          rw [List.chain'_cons']
          constructor
          · intro y hy
            rcases readHistoryAux_log_head server
                (some (((server (some s) et (min (m + 1) 1024)).getLastD
                  ⟨0, 0, 0⟩).serverTimestamp + 1)) et
                (m + 1 - (server (some s) et (min (m + 1) 1024)).length)
              with hh | hh
            · rw [hh] at hy; cases hy
            · rw [hh] at hy
              have hy' : (⟨some (((server (some s) et (min (m + 1) 1024)).getLastD
                    ⟨0, 0, 0⟩).serverTimestamp + 1), et,
                  min (m + 1 - (server (some s) et (min (m + 1) 1024)).length) 1024⟩ : HReq)
                  = y := by
                simpa using hy
              subst hy'
              refine ⟨hemp, rfl, ?_⟩
              show some _ = _
              rw [show pageOf server ⟨some s, et, min (m + 1) 1024⟩
                  = server (some s) et (min (m + 1) 1024) from rfl]
              rw [getLast?_eq_some_getLastD _ ⟨0, 0, 0⟩ hemp]
              simp
          · exact ih (m + 1 - (server (some s) et (min (m + 1) 1024)).length)
              (by omega) _ _

lemma readHistoryAux_dates_pages (server : Server) :
    ∀ (n : ℕ) (st et : Option ℤ),
      (readHistoryAux server st et n).dates =
        ((readHistoryAux server st et n).log.map
          (fun r => (pageOf server r).map (fun dv => dv.sourceTimestamp))).flatten := by
  intro n
  induction n using Nat.strong_induction_on with
  | _ n ih =>
    intro st et
    match n with
    | 0 => simp [readHistoryAux]
    | (m : ℕ) + 1 =>
      rcases st with _ | s
      · rw [readHistoryAux]
        by_cases hg : startGtEnd none et
        · simp [hg]
        · by_cases hemp : server none et (min (m + 1) 1024) = []
          · simp [hg, hemp, pageOf]
          · have hlen : 0 < (server none et (min (m + 1) 1024)).length :=
              List.length_pos.mpr hemp
            simp only [hg, Bool.false_eq_true, if_false, hemp, reduceDIte, reduceIte]
            rw [ih (m + 1 - (server none et (min (m + 1) 1024)).length) (by omega)]
            simp [pageOf]
      · rw [readHistoryAux]
        by_cases hg : startGtEnd (some s) et
        · simp [hg]
        · by_cases hemp : server (some s) et (min (m + 1) 1024) = []
          · simp [hg, hemp, pageOf]
          · have hlen : 0 < (server (some s) et (min (m + 1) 1024)).length :=
              List.length_pos.mpr hemp
            simp only [hg, Bool.false_eq_true, if_false, hemp, reduceDIte, reduceIte,
              reduceCtorEq]
            rw [ih (m + 1 - (server (some s) et (min (m + 1) 1024)).length) (by omega)]
            simp [pageOf]

lemma asyncOpcLoop_trace_calls (method : ℕ → Except PyExc ℤ) :
    ∀ (fuel nCalls : ℕ), ∀ x ∈ (asyncOpcLoop method nCalls fuel).2, x = Ev.call := by
  intro fuel
  induction fuel with
  | zero =>
    intro nCalls x hx
    rcases hm : method nCalls with e | v <;> simp [asyncOpcLoop, hm] at hx <;> exact hx
  | succ fuel ih =>
    intro nCalls x hx
    rcases hm : method nCalls with e | v
    · rcases e with _ | _ | c
      · simp [asyncOpcLoop, hm] at hx; exact hx
      all_goals
        simp [asyncOpcLoop, hm] at hx
        rcases hx with hx | hx
        · exact hx
        · exact ih _ x hx
    · simp [asyncOpcLoop, hm] at hx; exact hx

lemma opcLoop_success (method : ℕ → Except PyExc ℤ) (rec : ℕ → Except PyExc Unit)
    (nCalls nRecs fuel : ℕ) (v : ℤ) (h : method nCalls = .ok v) :
    opcLoop method rec nCalls nRecs (fuel + 1) = (.ok v, [.call]) := by
  simp [opcLoop, h]

lemma opcLoop_fail_step (method : ℕ → Except PyExc ℤ) (rec : ℕ → Except PyExc Unit)
    (nCalls nRecs fuel : ℕ) (e : PyExc) (h : method nCalls = .error e)
    (hne : e ≠ .badNoMatch) (hrec : Recoverable (rec nRecs)) :
    (opcLoop method rec nCalls nRecs (fuel + 1)).1
        = (opcLoop method rec (nCalls + 1) (nRecs + 1) fuel).1 ∧
    (opcLoop method rec nCalls nRecs (fuel + 1)).2.count .call
        = (opcLoop method rec (nCalls + 1) (nRecs + 1) fuel).2.count .call + 1 ∧
    (opcLoop method rec nCalls nRecs (fuel + 1)).2.count .reconnect
        = (opcLoop method rec (nCalls + 1) (nRecs + 1) fuel).2.count .reconnect + 1 := by
  rcases e with _ | _ | c
  · exact absurd rfl hne
  all_goals
    rcases hrec with hr | hr <;>
      simp [opcLoop, h, hr, List.count_cons]

lemma opcLoop_final (method : ℕ → Except PyExc ℤ) (rec : ℕ → Except PyExc Unit)
    (nCalls nRecs : ℕ) (h : rec nRecs = .ok ()) :
    (opcLoop method rec nCalls nRecs 0).1 = method nCalls ∧
    (opcLoop method rec nCalls nRecs 0).2.count .call = 1 ∧
    (opcLoop method rec nCalls nRecs 0).2.count .reconnect = 1 := by
  rcases hm : method nCalls with e | v <;> simp [opcLoop, h, hm, List.count_cons]

lemma gqlLoop_fail_step (method : ℕ → Except PyExc ℤ) (rec : ℕ → Except PyExc Unit)
    (nCalls nRecs fuel : ℕ) (e : PyExc) (h : method nCalls = .error e)
    (hrec : Recoverable (rec nRecs)) :
    (gqlLoop method rec nCalls nRecs (fuel + 1)).1
        = (gqlLoop method rec (nCalls + 1) (nRecs + 1) fuel).1 ∧
    (gqlLoop method rec nCalls nRecs (fuel + 1)).2.count .call
        = (gqlLoop method rec (nCalls + 1) (nRecs + 1) fuel).2.count .call + 1 := by
  rcases hrec with hr | hr <;> simp [gqlLoop, h, hr, List.count_cons]

lemma gqlLoop_final (method : ℕ → Except PyExc ℤ) (rec : ℕ → Except PyExc Unit)
    (nCalls nRecs : ℕ) (h : rec nRecs = .ok ()) :
    (gqlLoop method rec nCalls nRecs 0).1 = method nCalls ∧
    (gqlLoop method rec nCalls nRecs 0).2.count .call = 1 := by
  rcases hm : method nCalls with e | v <;> simp [gqlLoop, h, hm, List.count_cons]

lemma downloadAux_length_le (total cap : ℕ) (srv : Server2) (st et : Option ℤ)
    (hsrv : ∀ st' et' nv c, ((srv st' et' nv c).1).length ≤ nv) :
    ∀ (acc : List DataValue) (cont : Option ℕ), acc.length ≤ total →
      (downloadAux total cap srv st et acc cont).1.length ≤ total := by
  intro acc cont
  induction acc, cont using downloadAux.induct total cap srv st et with
  | case1 acc cont remaining numvalues res hemp =>
    intro hle
    have h1 : (srv st et (min cap (total - acc.length)) cont).1 = [] := hemp
    rw [downloadAux]
    simp [h1, hle]
  | case2 acc cont remaining numvalues res hemp hc =>
    intro hle
    have h1 : ¬ (srv st et (min cap (total - acc.length)) cont).1 = [] := hemp
    have h2 : (srv st et (min cap (total - acc.length)) cont).2 = none := hc
    have hp := hsrv st et (min cap (total - acc.length)) cont
    rw [downloadAux]
    simp [h1, h2, List.length_append]
    omega
  | case3 acc cont remaining numvalues res hemp acc2 hc hlen =>
    intro hle
    have h1 : ¬ (srv st et (min cap (total - acc.length)) cont).1 = [] := hemp
    have h2 : ¬ (srv st et (min cap (total - acc.length)) cont).2 = none := hc
    have h3 : total ≤ acc.length + (srv st et (min cap (total - acc.length)) cont).1.length := by
      have h4 : total ≤ (acc ++ (srv st et (min cap (total - acc.length)) cont).1).length := hlen
      simpa [List.length_append] using h4
    have hp := hsrv st et (min cap (total - acc.length)) cont
    rw [downloadAux]
    simp [h1, h2, h3, List.length_append]
    omega
  | case4 acc cont remaining numvalues res hemp acc2 hc hlen ih =>
    intro hle
    have h1 : ¬ (srv st et (min cap (total - acc.length)) cont).1 = [] := hemp
    have h2 : ¬ (srv st et (min cap (total - acc.length)) cont).2 = none := hc
    have h3 : ¬ total ≤ acc.length + (srv st et (min cap (total - acc.length)) cont).1.length := by
      intro hcontra
      have h4 : total ≤ (acc ++ (srv st et (min cap (total - acc.length)) cont).1).length := by
        simpa [List.length_append] using hcontra
      exact hlen h4
    rw [downloadAux]
    simp [h1, h2, h3, List.length_append]
    exact ih (by omega)

lemma downloadAux_log_asked (total cap : ℕ) (srv : Server2) (st et : Option ℤ) :
    ∀ (acc : List DataValue) (cont : Option ℕ) (k : ℕ) (e : PageLog),
      (downloadAux total cap srv st et acc cont).2.get? k = some e →
      e.asked = min cap (total - (acc.length
        + (((downloadAux total cap srv st et acc cont).2.take k).map
            (fun x => x.got)).sum)) := by
  intro acc cont
  induction acc, cont using downloadAux.induct total cap srv st et with
  | case1 acc cont remaining numvalues res hemp =>
    intro k e hk
    have h1 : (srv st et (min cap (total - acc.length)) cont).1 = [] := hemp
    rw [downloadAux] at hk ⊢
    simp [h1] at hk ⊢
    match k, hk with
    | 0, hk => simp at hk; simp [← hk]
  | case2 acc cont remaining numvalues res hemp hc =>
    intro k e hk
    have h1 : ¬ (srv st et (min cap (total - acc.length)) cont).1 = [] := hemp
    have h2 : (srv st et (min cap (total - acc.length)) cont).2 = none := hc
    rw [downloadAux] at hk ⊢
    simp [h1, h2] at hk ⊢
    match k, hk with
    | 0, hk => simp at hk; simp [← hk]
  | case3 acc cont remaining numvalues res hemp acc2 hc hlen =>
    intro k e hk
    have h1 : ¬ (srv st et (min cap (total - acc.length)) cont).1 = [] := hemp
    have h2 : ¬ (srv st et (min cap (total - acc.length)) cont).2 = none := hc
    have h3 : total ≤ acc.length + (srv st et (min cap (total - acc.length)) cont).1.length := by
      have h4 : total ≤ (acc ++ (srv st et (min cap (total - acc.length)) cont).1).length := hlen
      simpa [List.length_append] using h4
    rw [downloadAux] at hk ⊢
    simp [h1, h2, h3] at hk ⊢
    match k, hk with
    | 0, hk => simp at hk; simp [← hk]
  | case4 acc cont remaining numvalues res hemp acc2 hc hlen ih =>
    intro k e hk
    have h1 : ¬ (srv st et (min cap (total - acc.length)) cont).1 = [] := hemp
    have h2 : ¬ (srv st et (min cap (total - acc.length)) cont).2 = none := hc
    have h3 : ¬ total ≤ acc.length + (srv st et (min cap (total - acc.length)) cont).1.length := by
      intro hcontra
      have h4 : total ≤ (acc ++ (srv st et (min cap (total - acc.length)) cont).1).length := by
        simpa [List.length_append] using hcontra
      exact hlen h4
    rw [downloadAux] at hk ⊢
    simp [h1, h2, h3] at hk ⊢
    match k, hk with
    | 0, hk => simp at hk; simp [← hk]
    | (j : ℕ) + 1, hk =>
      simp at hk
      have ihj := ih j e (by simpa [List.get?_eq_getElem?] using hk)
      have ihj' : e.asked = min cap (total -
          ((acc ++ (srv st et (min cap (total - acc.length)) cont).1).length
            + (((downloadAux total cap srv st et
                  (acc ++ (srv st et (min cap (total - acc.length)) cont).1)
                  (srv st et (min cap (total - acc.length)) cont).2).2.take j).map
                (fun x => x.got)).sum)) := ihj
      simp only [List.length_append] at ihj'
      simp [ihj']
      omega
lemma fftSegmentPower_length (E : FFTColl) (w : List ℚ) (cg : ℚ)
    (signalP : List (ℚ × ℚ)) (step : ℕ) (detrend : Bool) (i : ℕ)
    (hfft : ∀ x n, (E.fft x n).length = n) :
    (fftSegmentPower E w cg signalP step detrend i).length = w.length := by
  simp [fftSegmentPower, hfft]

lemma length_foldl_zipWith_add (g : ℕ → List ℚ) (wl : ℕ) :
    ∀ (l : List ℕ), (∀ i ∈ l, (g i).length = wl) →
      ∀ spec : List ℚ, spec.length = wl →
        (l.foldl (fun spec i => List.zipWith (· + ·) spec (g i)) spec).length = wl := by
  intro l
  induction l with
  | nil => intro _ spec hs; simpa using hs
  | cons a l ihl =>
    intro hg spec hs
    rw [List.foldl_cons]
    refine ihl (fun i hi => hg i (List.mem_cons_of_mem a hi)) _ ?_
    rw [List.length_zipWith, hs, hg a (List.mem_cons_self a l)]
    exact min_self wl

lemma fftRawSpec_length (E : FFTColl) (signal : List (ℚ × ℚ))
    (winSize nOverlap : ℕ) (windowName : String) (detrend : Bool)
    (hfft : ∀ x n, (E.fft x n).length = n) :
    (fftRawSpec E signal winSize nOverlap windowName detrend).length
      = (E.getWindow windowName winSize).length := by
  rw [fftRawSpec]
  rw [List.length_map]
  exact length_foldl_zipWith_add _ _ _
    (fun i _ => fftSegmentPower_length E _ _ _ _ _ i hfft) _ (by simp)

lemma isRealSignal_padSignal (signal : List (ℚ × ℚ)) (wlen : ℕ) :
    isRealSignal (padSignal signal wlen) = isRealSignal signal := by
  rw [padSignal]
  split
  · simp [isRealSignal, List.all_append]
  · rfl

lemma doubleInterior_length (stop : ℕ) :
    ∀ (l : List ℚ) (j : ℕ), (doubleInterior stop j l).length = l.length := by
  intro l
  induction l with
  | nil => intro j; simp [doubleInterior]
  | cons x xs ih => intro j; simp [doubleInterior, ih]

lemma doubleInterior_get? (stop : ℕ) :
    ∀ (l : List ℚ) (j i : ℕ),
      (doubleInterior stop j l).get? i
        = (l.get? i).map (fun x => if 1 ≤ j + i ∧ j + i < stop - 1 then 2 * x else x) := by
  intro l
  induction l with
  | nil => intro j i; simp [doubleInterior]
  | cons x xs ih =>
    intro j i
    cases i with
    | zero => simp [doubleInterior]
    | succ i =>
      simp only [doubleInterior, List.get?_cons_succ]
      rw [ih (j + 1) i]
      have harith : j + 1 + i = j + (i + 1) := by omega
      rw [harith]

lemma mirrorSettling_of_long (data : List ℚ) (h : 14 ≤ data.length) :
    (mirrorSettling data).length = data.length ∧
    (∀ i, i < 6 → (mirrorSettling data)[i]? = data[13 - i]?) ∧
    (∀ i, 6 ≤ i → (mirrorSettling data)[i]? = data[i]?) := by
  obtain ⟨v13, h13⟩ : ∃ v, data[13]? = some v :=
    ⟨data.get ⟨13, by omega⟩, List.getElem?_eq_getElem (by omega)⟩
  obtain ⟨v12, h12⟩ : ∃ v, data[12]? = some v :=
    ⟨data.get ⟨12, by omega⟩, List.getElem?_eq_getElem (by omega)⟩
  obtain ⟨v11, h11⟩ : ∃ v, data[11]? = some v :=
    ⟨data.get ⟨11, by omega⟩, List.getElem?_eq_getElem (by omega)⟩
  obtain ⟨v10, h10⟩ : ∃ v, data[10]? = some v :=
    ⟨data.get ⟨10, by omega⟩, List.getElem?_eq_getElem (by omega)⟩
  obtain ⟨v9, h9⟩ : ∃ v, data[9]? = some v :=
    ⟨data.get ⟨9, by omega⟩, List.getElem?_eq_getElem (by omega)⟩
  obtain ⟨v8, h8⟩ : ∃ v, data[8]? = some v :=
    ⟨data.get ⟨8, by omega⟩, List.getElem?_eq_getElem (by omega)⟩
  have hpre : settleSrcIdx.filterMap (fun i => data.get? i)
      = [v13, v12, v11, v10, v9, v8] := by
    simp [settleSrcIdx, List.filterMap_cons, List.get?_eq_getElem?,
      h13, h12, h11, h10, h9, h8]
  have hms : mirrorSettling data = [v13, v12, v11, v10, v9, v8] ++ data.drop 6 := by
    rw [mirrorSettling, hpre]
  refine ⟨?_, ?_, ?_⟩
  · rw [hms]
    simp only [List.length_append, List.length_drop, List.length_cons, List.length_nil]
    omega
  · intro i hi
    rw [hms]
    interval_cases i <;>
      simp [h13, h12, h11, h10, h9, h8]
  · intro i hi
    rw [hms]
    rw [List.getElem?_append_right (by simp; omega)]
    simp only [List.length_cons, List.length_nil]
    rw [List.getElem?_drop]
    rw [show (0 + 1 + 1 + 1 + 1 + 1 + 1 : ℕ) = 6 from rfl]
    rw [show 6 + (i - 6) = i from by omega]

/-! ## Claim theorems -/

/-- C1: every retrieval by `readHistory` presents its `(values, dates)`
pair oldest→newest: with `start` omitted (backward mode) the
accumulated sequences are reversed before return, with `start` given
(forward mode) they are returned in accumulation order; consequently a
newest→oldest accumulation comes out sorted oldest→newest in backward
mode, and an oldest→newest accumulation stays sorted in forward
mode. -/
theorem readHistory_chronological_order :
    (∀ (server : Server) (endT : Option ℤ) (n : ℕ),
      readHistory server none endT n
        = ⟨(readHistoryAux server none endT n).values.reverse,
           (readHistoryAux server none endT n).dates.reverse,
           (readHistoryAux server none endT n).log⟩) ∧
    (∀ (server : Server) (s : ℤ) (endT : Option ℤ) (n : ℕ),
      readHistory server (some s) endT n = readHistoryAux server (some s) endT n) ∧
    (∀ (server : Server) (endT : Option ℤ) (n : ℕ),
      (readHistoryAux server none endT n).dates.Sorted (· ≥ ·) →
      (readHistory server none endT n).dates.Sorted (· ≤ ·)) ∧
    (∀ (server : Server) (s : ℤ) (endT : Option ℤ) (n : ℕ),
      (readHistoryAux server (some s) endT n).dates.Sorted (· ≤ ·) →
      (readHistory server (some s) endT n).dates.Sorted (· ≤ ·)) := by
  refine ⟨fun server endT n => rfl, fun server s endT n => rfl, ?_, ?_⟩
  · intro server endT n hs
    show ((readHistoryAux server none endT n).dates.reverse).Sorted (· ≤ ·)
    exact List.pairwise_reverse.mpr hs
  · intro server s endT n hs
    exact hs

/-- Witness for C1 at a concrete empty server. -/
theorem readHistory_chronological_order_witness :
    (readHistory srvNull none (some 5) 10).dates.Sorted (· ≤ ·) :=
  readHistory_chronological_order.2.2.1 srvNull (some 5) 10
    (by rw [readHistoryAux]; simp [srvNull, startGtEnd])

/-- C2: in every pagination step of `readHistory` the continuation
boundary of the next request is the previous page's last sample's
*server* timestamp offset by one microsecond (`end - 1µs` backward,
`start + 1µs` forward, the other bound unchanged), never the source
timestamp; the source timestamps are what the returned `dates`
sequence is built from (the concatenation of the pages' source
timestamps, reversed in backward mode). -/
theorem readHistory_cursor_server_timestamp :
    (∀ (server : Server) (endT : Option ℤ) (n : ℕ),
      List.Chain' (backStep server) (readHistory server none endT n).log) ∧
    (∀ (server : Server) (s : ℤ) (endT : Option ℤ) (n : ℕ),
      List.Chain' (forwardStep server endT) (readHistory server (some s) endT n).log) ∧
    (∀ (server : Server) (st endT : Option ℤ) (n : ℕ),
      (readHistoryAux server st endT n).dates =
        ((readHistoryAux server st endT n).log.map
          (fun r => (pageOf server r).map (fun dv => dv.sourceTimestamp))).flatten) ∧
    (∀ (server : Server) (endT : Option ℤ) (n : ℕ),
      (readHistory server none endT n).dates =
        (((readHistory server none endT n).log.map
          (fun r => (pageOf server r).map (fun dv => dv.sourceTimestamp))).flatten).reverse) := by
  refine ⟨?_, ?_, ?_, ?_⟩
  · intro server endT n
    exact readHistoryAux_back_chain server n endT
  · intro server s endT n
    exact readHistoryAux_forward_chain server n s endT
  · intro server st endT n
    exact readHistoryAux_dates_pages server n st endT
  · intro server endT n
    show (readHistoryAux server none endT n).dates.reverse = _
    rw [readHistoryAux_dates_pages server n none endT]
    rfl

/-- C3: the synchronous wrapper propagates a first-call `BadNoMatch`
immediately (one call, no reconnect, no sleep) and reacts to any other
first-call failure by reconnecting; the async variant also propagates
`BadNoMatch` immediately, but because `obj.reconnect()` is never
awaited it performs *no* reconnect and *no* backoff sleep on any
failure at all. -/
theorem autoConnecting_badNoMatch_policy :
    (∀ (method : ℕ → Except PyExc ℤ) (rec : ℕ → Except PyExc Unit),
      method 0 = .error .badNoMatch →
      opcAutoConnectingClient method rec = (.error .badNoMatch, [.call])) ∧
    (∀ method : ℕ → Except PyExc ℤ,
      method 0 = .error .badNoMatch →
      asyncOpcAutoConnectingClient method = (.error .badNoMatch, [.call])) ∧
    (∀ (method : ℕ → Except PyExc ℤ) (rec : ℕ → Except PyExc Unit) (e : PyExc),
      method 0 = .error e → e ≠ .badNoMatch →
      (opcAutoConnectingClient method rec).2.take 2 = [.call, .reconnect]) ∧
    (∀ method : ℕ → Except PyExc ℤ,
      (asyncOpcAutoConnectingClient method).2.count .reconnect = 0 ∧
      (asyncOpcAutoConnectingClient method).2.count (.sleep RETRY_DELAY) = 0) := by
  refine ⟨?_, ?_, ?_, ?_⟩
  · intro method rec h
    simp [opcAutoConnectingClient, MAX_RETRIES, opcLoop, h]
  · intro method h
    simp [asyncOpcAutoConnectingClient, MAX_RETRIES, asyncOpcLoop, h]
  · intro method rec e h hne
    rcases e with _ | _ | c
    · exact absurd rfl hne
    all_goals
      rcases hr : rec 0 with er | u
      · rcases er with _ | _ | c2 <;>
          simp [opcAutoConnectingClient, MAX_RETRIES, opcLoop, h, hr]
      · simp [opcAutoConnectingClient, MAX_RETRIES, opcLoop, h, hr]
  · intro method
    constructor <;>
      · rw [List.count_eq_zero]
        intro hmem
        have hx := asyncOpcLoop_trace_calls method MAX_RETRIES 0 _ hmem
        simp at hx

/-- Witness for C3 at concrete collaborators. -/
theorem autoConnecting_badNoMatch_policy_witness :
    opcAutoConnectingClient mNoMatch recOk = (.error .badNoMatch, [.call]) ∧
    asyncOpcAutoConnectingClient mNoMatch = (.error .badNoMatch, [.call]) ∧
    (opcAutoConnectingClient mFail2 recOk).2.take 2 = [.call, .reconnect] :=
  ⟨autoConnecting_badNoMatch_policy.1 mNoMatch recOk rfl,
   autoConnecting_badNoMatch_policy.2.1 mNoMatch rfl,
   autoConnecting_badNoMatch_policy.2.2.1 mFail2 recOk (.other 7) rfl (by decide)⟩

/-- C4: the synchronous wrapper makes up to `MAX_RETRIES` guarded
attempts with a reconnect after each failure; success at guarded
attempt `n` returns the result after `n+1` calls, and when all guarded
attempts fail one final unguarded reconnect-plus-invoke is made whose
outcome — the wrapped method's own result or exception — is what the
caller sees. -/
theorem autoConnecting_retry_budget :
    (∀ (method : ℕ → Except PyExc ℤ) (rec : ℕ → Except PyExc Unit)
        (exc : ℕ → PyExc) (v : ℤ) (n : ℕ),
      n < MAX_RETRIES →
      (∀ i, i < n → method i = .error (exc i) ∧ exc i ≠ .badNoMatch) →
      (∀ i, i < n → Recoverable (rec i)) →
      method n = .ok v →
      (opcAutoConnectingClient method rec).1 = .ok v ∧
      (opcAutoConnectingClient method rec).2.count .call = n + 1) ∧
    (∀ (method : ℕ → Except PyExc ℤ) (rec : ℕ → Except PyExc Unit)
        (exc : ℕ → PyExc),
      (∀ i, i < MAX_RETRIES → method i = .error (exc i) ∧ exc i ≠ .badNoMatch) →
      (∀ i, i < MAX_RETRIES → Recoverable (rec i)) →
      rec MAX_RETRIES = .ok () →
      (opcAutoConnectingClient method rec).1 = method MAX_RETRIES ∧
      (opcAutoConnectingClient method rec).2.count .call = MAX_RETRIES + 1 ∧
      (opcAutoConnectingClient method rec).2.count .reconnect = MAX_RETRIES + 1) := by
  constructor
  · intro method rec exc v n hn hm hr hok
    rw [MAX_RETRIES] at hn
    rw [opcAutoConnectingClient, MAX_RETRIES]
    interval_cases n
    · rw [opcLoop_success method rec 0 0 2 v hok]
      exact ⟨rfl, rfl⟩
    · obtain ⟨h0, h0ne⟩ := hm 0 (by omega)
      obtain ⟨s1, sc1, -⟩ := opcLoop_fail_step method rec 0 0 2 _ h0 h0ne (hr 0 (by omega))
      rw [opcLoop_success method rec 1 1 1 v hok] at s1 sc1
      rw [s1, sc1]
      exact ⟨rfl, rfl⟩
    · obtain ⟨h0, h0ne⟩ := hm 0 (by omega)
      obtain ⟨h1, h1ne⟩ := hm 1 (by omega)
      obtain ⟨s1, sc1, -⟩ := opcLoop_fail_step method rec 0 0 2 _ h0 h0ne (hr 0 (by omega))
      obtain ⟨s2, sc2, -⟩ := opcLoop_fail_step method rec 1 1 1 _ h1 h1ne (hr 1 (by omega))
      rw [opcLoop_success method rec 2 2 0 v hok] at s2 sc2
      rw [s1, s2, sc1, sc2]
      exact ⟨rfl, rfl⟩
  · intro method rec exc hm hr hrf
    rw [MAX_RETRIES] at hrf ⊢
    rw [opcAutoConnectingClient, MAX_RETRIES]
    obtain ⟨h0, h0ne⟩ := hm 0 (by rw [MAX_RETRIES]; omega)
    obtain ⟨h1, h1ne⟩ := hm 1 (by rw [MAX_RETRIES]; omega)
    obtain ⟨h2, h2ne⟩ := hm 2 (by rw [MAX_RETRIES]; omega)
    obtain ⟨s1, sc1, sr1⟩ := opcLoop_fail_step method rec 0 0 2 _ h0 h0ne
      (hr 0 (by rw [MAX_RETRIES]; omega))
    obtain ⟨s2, sc2, sr2⟩ := opcLoop_fail_step method rec 1 1 1 _ h1 h1ne
      (hr 1 (by rw [MAX_RETRIES]; omega))
    obtain ⟨s3, sc3, sr3⟩ := opcLoop_fail_step method rec 2 2 0 _ h2 h2ne
      (hr 2 (by rw [MAX_RETRIES]; omega))
    obtain ⟨f1, fc1, fr1⟩ := opcLoop_final method rec 3 3 hrf
    rw [s1, s2, s3, sc1, sc2, sc3, sr1, sr2, sr3, f1, fc1, fr1]
    exact ⟨rfl, rfl, rfl⟩

/-- Witness for C4: two transient failures, then success on the third
guarded attempt. -/
theorem autoConnecting_retry_budget_witness :
    (opcAutoConnectingClient mFail2 recOk).1 = .ok 42 ∧
    (opcAutoConnectingClient mFail2 recOk).2.count .call = 2 + 1 :=
  autoConnecting_retry_budget.1 mFail2 recOk excOther7 42 2 (by decide)
    (fun i hi => ⟨by simp [mFail2, excOther7, hi], by simp [excOther7]⟩)
    (fun i _ => Or.inl rfl) rfl

/-- C5: `readHistory` with `start > end` returns the empty pair with
no request issued, while `readHistory2` at the same inputs executes a
bare `return`, producing Python `None` instead of the documented empty
pair (also with no request issued). -/
theorem readHistory_inverted_range :
    ∀ server : Server,
      readHistory server (some 1) (some 0) 8192 = ⟨[], [], []⟩ ∧
      readHistory2 server (some 1) (some 0) 8192 = (none, []) := by
  intro server
  constructor
  · rw [readHistory, readHistoryAux]
    simp [startGtEnd]
  · rw [readHistory2]
    simp [startGtEnd]

/-- C6: with `totalLimit = 8192` and `perRequestCap = 10` the
downloader retrieves 25 samples in exactly three page requests
returning 10, 10 and 5 samples, in order; in general every request
asks for exactly `min(cap, total - countSoFar)` samples and an honest
server (never returning more than asked) can never make the result
exceed the total limit. -/
theorem download_endnode_pagination :
    download_endnode 8192 10 scenServer (some 0) (some 100)
        = (scenSamples, [⟨10, 10⟩, ⟨10, 10⟩, ⟨10, 5⟩]) ∧
    (∀ (total cap : ℕ) (srv : Server2) (st et : Option ℤ) (k : ℕ) (e : PageLog),
      (download_endnode total cap srv st et).2.get? k = some e →
      e.asked = min cap (total -
        (((download_endnode total cap srv st et).2.take k).map (fun x => x.got)).sum)) ∧
    (∀ (total cap : ℕ) (srv : Server2) (st et : Option ℤ),
      (∀ st' et' nv c, ((srv st' et' nv c).1).length ≤ nv) →
      (download_endnode total cap srv st et).1.length ≤ total) := by
  refine ⟨?_, ?_, ?_⟩
  · have hsnil : scenSamples = [] ↔ False := by decide
    have hslen : scenSamples.length = 25 := by decide
    have e0 : scenServer (some 0) (some 100) 10 none
        = (scenSamples.take 10, some 10) := by decide
    have e1 : scenServer (some 0) (some 100) 10 (some 10)
        = ((scenSamples.drop 10).take 10, some 20) := by decide
    have e2 : scenServer (some 0) (some 100) 10 (some 20)
        = ((scenSamples.drop 20).take 10, none) := by decide
    have l0 : (scenSamples.take 10).length = 10 := by decide
    have l1 : ((scenSamples.drop 10).take 10).length = 10 := by decide
    have l2 : ((scenSamples.drop 20).take 10).length = 5 := by decide
    have n1 : (scenSamples.drop 10).take 10 = [] ↔ False := by decide
    have n2 : (scenSamples.drop 20).take 10 = [] ↔ False := by decide
    have efin : scenSamples.take 10 ++ (scenSamples.drop 10).take 10
        ++ (scenSamples.drop 20).take 10 = scenSamples := by decide
    rw [download_endnode, downloadAux]
    simp only [List.length_nil, Nat.sub_zero]
    norm_num [e0, hsnil, hslen, l0]
    rw [downloadAux]
    norm_num [e1, hslen, l0, l1, n1, List.length_append, List.length_take]
    rw [downloadAux]
    norm_num [e2, hslen, l0, l1, l2, n1, n2, efin, List.length_append,
      List.length_take]
    simp
  · intro total cap srv st et k e hk
    have hmain := downloadAux_log_asked total cap srv st et [] none k e hk
    simpa using hmain
  · intro total cap srv st et hsrv
    exact downloadAux_length_le total cap srv st et hsrv [] none (by simp)

/-- Witness for C6 at a concrete empty continuation server. -/
theorem download_endnode_pagination_witness :
    (⟨2, 0⟩ : PageLog).asked = min 2 (5 -
        (((download_endnode 5 2 srv2Null none none).2.take 0).map (fun x => x.got)).sum) ∧
    (download_endnode 5 2 srv2Null none none).1.length ≤ 5 :=
  ⟨download_endnode_pagination.2.1 5 2 srv2Null none none 0 ⟨2, 0⟩
      (by rw [download_endnode, downloadAux]; simp [srv2Null]),
   download_endnode_pagination.2.2 5 2 srv2Null none none
      (fun st' et' nv c => by simp [srv2Null])⟩

/-- C7: `perform_hpf_filtering` with `hpf = 0` is a bypass: the
caller's buffer is untouched and the input sequence itself is
returned, for every filter kernel, input and sample rate. -/
theorem perform_hpf_filtering_bypass :
    ∀ (φ : FiltFilt) (data : List ℚ) (sampleRate : ℚ),
      perform_hpf_filtering φ data sampleRate 0 = (data, data) := by
  intro φ data sampleRate
  rw [perform_hpf_filtering]
  simp

/-- C8: for a real-valued signal (no imaginary component anywhere)
`perform_fft_windowed` retains exactly the first `ceil(winSize/2)`
spectrum bins, doubling every retained bin except the DC bin (index 0)
and the last retained (Nyquist-edge) bin; a complex-valued signal
retains all `winSize` bins undoubled; and the returned spectrum and
frequency sequences always have equal length. -/
theorem perform_fft_windowed_one_sided :
    ∀ (E : FFTColl) (signal : List (ℚ × ℚ)) (fs : ℚ) (winSize nOverlap : ℕ)
      (windowName : String) (detrend : Bool) (mode : FFTMode),
      (E.getWindow windowName winSize).length = winSize →
      (∀ x n, (E.fft x n).length = n) →
      nOverlap < winSize →
      ∃ spec freq,
        perform_fft_windowed E signal fs winSize nOverlap windowName detrend mode
          = some (spec, freq) ∧
        spec.length = freq.length ∧
        spec.length = (fftSelectedSpec E signal winSize nOverlap windowName detrend).length ∧
        (isRealSignal signal = true →
          (fftSelectedSpec E signal winSize nOverlap windowName detrend).length
              = (winSize + 1) / 2 ∧
          (fftSelectedSpec E signal winSize nOverlap windowName detrend).get? 0
              = (fftRawSpec E signal winSize nOverlap windowName detrend).get? 0 ∧
          (∀ i, 1 ≤ i → i + 1 < (winSize + 1) / 2 →
            (fftSelectedSpec E signal winSize nOverlap windowName detrend).get? i
              = ((fftRawSpec E signal winSize nOverlap windowName detrend).get? i).map
                  (fun x => 2 * x)) ∧
          (fftSelectedSpec E signal winSize nOverlap windowName detrend).get?
              ((winSize + 1) / 2 - 1)
            = (fftRawSpec E signal winSize nOverlap windowName detrend).get?
                ((winSize + 1) / 2 - 1)) ∧
        (isRealSignal signal = false →
          fftSelectedSpec E signal winSize nOverlap windowName detrend
              = fftRawSpec E signal winSize nOverlap windowName detrend ∧
          (fftRawSpec E signal winSize nOverlap windowName detrend).length = winSize) := by
  intro E signal fs winSize nOverlap windowName detrend mode hw hfft hov
  have hwpos : 0 < winSize := by omega
  have hrawlen : (fftRawSpec E signal winSize nOverlap windowName detrend).length
      = winSize := by
    rw [fftRawSpec_length E signal winSize nOverlap windowName detrend hfft, hw]
  have hstopR : isRealSignal signal = true →
      fftStop E signal winSize windowName = (winSize + 1) / 2 := by
    intro hr
    simp [fftStop, isRealSignal_padSignal, hr, hw]
  have hstopC : isRealSignal signal = false →
      fftStop E signal winSize windowName = winSize := by
    intro hr
    simp [fftStop, isRealSignal_padSignal, hr, hw]
  have hselR : isRealSignal signal = true →
      fftSelectedSpec E signal winSize nOverlap windowName detrend
        = (doubleInterior ((winSize + 1) / 2) 0
            (fftRawSpec E signal winSize nOverlap windowName detrend)).take
            ((winSize + 1) / 2) := by
    intro hr
    rw [fftSelectedSpec]
    simp only [isRealSignal_padSignal, hr, if_pos, hstopR hr]
  have hselC : isRealSignal signal = false →
      fftSelectedSpec E signal winSize nOverlap windowName detrend
        = fftRawSpec E signal winSize nOverlap windowName detrend := by
    intro hr
    rw [fftSelectedSpec]
    simp only [isRealSignal_padSignal, hr, Bool.false_eq_true, if_false, hstopC hr]
    exact List.take_of_length_le (le_of_eq hrawlen)
  have hsellen : (fftSelectedSpec E signal winSize nOverlap windowName detrend).length
      = fftStop E signal winSize windowName := by
    rcases hr : isRealSignal signal with _ | _
    · rw [hselC hr, hstopC hr, hrawlen]
    · rw [hselR hr, hstopR hr]
      rw [List.length_take, doubleInterior_length, hrawlen]
      have hhalf : (winSize + 1) / 2 ≤ winSize := by omega
      omega
  have hfreqlen : (fftFreq E signal winSize windowName fs).length
      = fftStop E signal winSize windowName := by
    simp only [fftFreq, List.length_map, List.length_range]
  have coreR : isRealSignal signal = true →
      (fftSelectedSpec E signal winSize nOverlap windowName detrend).length
          = (winSize + 1) / 2 ∧
      (fftSelectedSpec E signal winSize nOverlap windowName detrend).get? 0
          = (fftRawSpec E signal winSize nOverlap windowName detrend).get? 0 ∧
      (∀ i, 1 ≤ i → i + 1 < (winSize + 1) / 2 →
        (fftSelectedSpec E signal winSize nOverlap windowName detrend).get? i
          = ((fftRawSpec E signal winSize nOverlap windowName detrend).get? i).map
              (fun x => 2 * x)) ∧
      (fftSelectedSpec E signal winSize nOverlap windowName detrend).get?
          ((winSize + 1) / 2 - 1)
        = (fftRawSpec E signal winSize nOverlap windowName detrend).get?
            ((winSize + 1) / 2 - 1) := by
    intro hr
    have hstop1 : 1 ≤ (winSize + 1) / 2 := by omega
    refine ⟨by rw [hsellen, hstopR hr], ?_, ?_, ?_⟩
    · rw [hselR hr, List.get?_take hstop1, doubleInterior_get?]
      have hcond : ¬ (1 ≤ 0 + 0 ∧ 0 + 0 < (winSize + 1) / 2 - 1) := by omega
      rcases h0 : (fftRawSpec E signal winSize nOverlap windowName detrend).get? 0
        with _ | x
      · rfl
      · simp only [Option.map_some']
        rw [if_neg hcond]
    · intro i hi1 hi2
      rw [hselR hr, List.get?_take (by omega), doubleInterior_get?]
      rcases h0 : (fftRawSpec E signal winSize nOverlap windowName detrend).get? i
        with _ | x
      · rfl
      · simp only [Option.map_some']
        have hcond : 1 ≤ 0 + i ∧ 0 + i < (winSize + 1) / 2 - 1 := by omega
        rw [if_pos hcond]
    · rw [hselR hr, List.get?_take (by omega), doubleInterior_get?]
      rcases h0 : (fftRawSpec E signal winSize nOverlap windowName detrend).get?
          ((winSize + 1) / 2 - 1) with _ | x
      · rfl
      · simp only [Option.map_some']
        have hcond : ¬ (1 ≤ 0 + ((winSize + 1) / 2 - 1)
            ∧ 0 + ((winSize + 1) / 2 - 1) < (winSize + 1) / 2 - 1) := by omega
        rw [if_neg hcond]
  have coreC : isRealSignal signal = false →
      fftSelectedSpec E signal winSize nOverlap windowName detrend
          = fftRawSpec E signal winSize nOverlap windowName detrend ∧
      (fftRawSpec E signal winSize nOverlap windowName detrend).length = winSize :=
    fun hr => ⟨hselC hr, hrawlen⟩
  cases mode
  case lin =>
    refine ⟨fftSelectedSpec E signal winSize nOverlap windowName detrend,
      fftFreq E signal winSize windowName fs, ?_, ?_, rfl, coreR, coreC⟩
    · simp [perform_fft_windowed, hov]
    · rw [hsellen, hfreqlen]
  case log =>
    refine ⟨(fftSelectedSpec E signal winSize nOverlap windowName detrend).map
        (fun x => 10 * E.log10F x),
      fftFreq E signal winSize windowName fs, ?_, ?_, by rw [List.length_map],
      coreR, coreC⟩
    · simp [perform_fft_windowed, hov]
    · rw [List.length_map, hsellen, hfreqlen]
  case magnitudeRMS =>
    refine ⟨(fftSelectedSpec E signal winSize nOverlap windowName detrend).map E.sqrtF,
      fftFreq E signal winSize windowName fs, ?_, ?_, by rw [List.length_map],
      coreR, coreC⟩
    · simp [perform_fft_windowed, hov]
    · rw [List.length_map, hsellen, hfreqlen]
  case magnitudePeak =>
    refine ⟨(fftSelectedSpec E signal winSize nOverlap windowName detrend).map
        (fun x => E.sqrtF (2 * x)),
      fftFreq E signal winSize windowName fs, ?_, ?_, by rw [List.length_map],
      coreR, coreC⟩
    · simp [perform_fft_windowed, hov]
    · rw [List.length_map, hsellen, hfreqlen]

/-- Witness for C8 at concrete collaborators and a real signal of
length 8. -/
theorem perform_fft_windowed_one_sided_witness :
    (fftSelectedSpec fftCollId signal8 8 0 "hann" false).length = (8 + 1) / 2 := by
  obtain ⟨spec, freq, -, -, -, hReal, -⟩ :=
    perform_fft_windowed_one_sided fftCollId signal8 8 8 0 "hann" false .lin
      (by decide) (fun x n => by simp [fftCollId]) (by decide)
  exact (hReal (by decide)).1

/-- C9: with a nonzero cutoff, `perform_hpf_filtering` mutates the
caller's list in place before filtering — indices 0..5 of the argument
end up holding the mirrored copy of indices 13 down to 8, the rest is
unchanged — while the returned sequence is the (fresh) output of the
two filter stages applied to the mutated buffer. -/
theorem perform_hpf_filtering_frame_effect :
    ∀ (φ : FiltFilt) (data : List ℚ) (sampleRate hpf : ℚ), hpf ≠ 0 →
      (perform_hpf_filtering φ data sampleRate hpf).1 = mirrorSettling data ∧
      (perform_hpf_filtering φ data sampleRate hpf).2
        = run_highpass_filter φ
            (run_highpass_filter φ (mirrorSettling data) 3 sampleRate 1)
            ((pyInt hpf : ℤ) : ℚ) sampleRate 2 ∧
      (14 ≤ data.length →
        (perform_hpf_filtering φ data sampleRate hpf).1.length = data.length ∧
        (∀ i, i < 6 →
          (perform_hpf_filtering φ data sampleRate hpf).1[i]? = data[13 - i]?) ∧
        (∀ i, 6 ≤ i →
          (perform_hpf_filtering φ data sampleRate hpf).1[i]? = data[i]?)) := by
  intro φ data sampleRate hpf hne
  have hbuf : (perform_hpf_filtering φ data sampleRate hpf).1 = mirrorSettling data := by
    rw [perform_hpf_filtering]
    simp [hne]
  have hres : (perform_hpf_filtering φ data sampleRate hpf).2
      = run_highpass_filter φ
          (run_highpass_filter φ (mirrorSettling data) 3 sampleRate 1)
          ((pyInt hpf : ℤ) : ℚ) sampleRate 2 := by
    rw [perform_hpf_filtering]
    simp [hne]
  refine ⟨hbuf, hres, fun hlen => ?_⟩
  obtain ⟨hl, h6, h6'⟩ := mirrorSettling_of_long data hlen
  rw [hbuf]
  exact ⟨hl, h6, h6'⟩

/-- Witness for C9 at the identity kernel and the sample list
`0, …, 14`. -/
theorem perform_hpf_filtering_frame_effect_witness :
    (perform_hpf_filtering φId data15 100 3).1 = mirrorSettling data15 ∧
    (perform_hpf_filtering φId data15 100 3).1[0]? = data15[13]? ∧
    (perform_hpf_filtering φId data15 100 3).1[7]? = data15[7]? :=
  ⟨(perform_hpf_filtering_frame_effect φId data15 100 3 (by norm_num)).1,
   ((perform_hpf_filtering_frame_effect φId data15 100 3 (by norm_num)).2.2
      (by decide)).2.1 0 (by decide),
   ((perform_hpf_filtering_frame_effect φId data15 100 3 (by norm_num)).2.2
      (by decide)).2.2 7 (by decide)⟩

/-- C10: the GraphQL wrapper has no non-retryable classification:
whatever the errors — including a deterministic `BadNoMatch`-style
not-found — all `MAX_RETRIES` guarded attempts are consumed and the
final unguarded attempt's outcome surfaces; in particular a constantly
not-found collaborator is called 4 times by the GraphQL wrapper but
only once by the node-addressable wrapper. -/
theorem gql_autoConnecting_retries_everything :
    (∀ (method : ℕ → Except PyExc ℤ) (rec : ℕ → Except PyExc Unit)
        (exc : ℕ → PyExc),
      (∀ i, i < MAX_RETRIES → method i = .error (exc i)) →
      (∀ i, i < MAX_RETRIES → Recoverable (rec i)) →
      rec MAX_RETRIES = .ok () →
      (gqlAutoConnectingClient method rec).1 = method MAX_RETRIES ∧
      (gqlAutoConnectingClient method rec).2.count .call = MAX_RETRIES + 1) ∧
    (∀ rec : ℕ → Except PyExc Unit,
      (∀ i, rec i = .ok ()) →
      (gqlAutoConnectingClient mNoMatch rec).1 = .error .badNoMatch ∧
      (gqlAutoConnectingClient mNoMatch rec).2.count .call = MAX_RETRIES + 1 ∧
      (opcAutoConnectingClient mNoMatch rec).2.count .call = 1) := by
  constructor
  · intro method rec exc hm hr hrf
    rw [MAX_RETRIES] at hrf ⊢
    rw [gqlAutoConnectingClient, MAX_RETRIES]
    obtain ⟨s1, sc1⟩ := gqlLoop_fail_step method rec 0 0 2 _
      (hm 0 (by rw [MAX_RETRIES]; omega)) (hr 0 (by rw [MAX_RETRIES]; omega))
    obtain ⟨s2, sc2⟩ := gqlLoop_fail_step method rec 1 1 1 _
      (hm 1 (by rw [MAX_RETRIES]; omega)) (hr 1 (by rw [MAX_RETRIES]; omega))
    obtain ⟨s3, sc3⟩ := gqlLoop_fail_step method rec 2 2 0 _
      (hm 2 (by rw [MAX_RETRIES]; omega)) (hr 2 (by rw [MAX_RETRIES]; omega))
    obtain ⟨f1, fc1⟩ := gqlLoop_final method rec 3 3 hrf
    rw [s1, s2, s3, sc1, sc2, sc3, f1, fc1]
    exact ⟨rfl, rfl⟩
  · intro rec hrec
    have key :
        (gqlAutoConnectingClient mNoMatch rec).1 = mNoMatch MAX_RETRIES ∧
        (gqlAutoConnectingClient mNoMatch rec).2.count .call = MAX_RETRIES + 1 := by
      rw [MAX_RETRIES]
      rw [gqlAutoConnectingClient, MAX_RETRIES]
      obtain ⟨s1, sc1⟩ := gqlLoop_fail_step mNoMatch rec 0 0 2 .badNoMatch rfl
        (Or.inl (hrec 0))
      obtain ⟨s2, sc2⟩ := gqlLoop_fail_step mNoMatch rec 1 1 1 .badNoMatch rfl
        (Or.inl (hrec 1))
      obtain ⟨s3, sc3⟩ := gqlLoop_fail_step mNoMatch rec 2 2 0 .badNoMatch rfl
        (Or.inl (hrec 2))
      obtain ⟨f1, fc1⟩ := gqlLoop_final mNoMatch rec 3 3 (hrec 3)
      rw [s1, s2, s3, sc1, sc2, sc3, f1, fc1]
      exact ⟨rfl, rfl⟩
    refine ⟨key.1, key.2, ?_⟩
    simp [opcAutoConnectingClient, MAX_RETRIES, opcLoop, mNoMatch]

/-- Witness for C10 at concrete collaborators. -/
theorem gql_autoConnecting_retries_everything_witness :
    (gqlAutoConnectingClient mNoMatch recOk).1 = .error .badNoMatch ∧
    (gqlAutoConnectingClient mNoMatch recOk).2.count .call = MAX_RETRIES + 1 ∧
    (opcAutoConnectingClient mNoMatch recOk).2.count .call = 1 :=
  gql_autoConnecting_retries_everything.2 recOk (fun _ => rfl)

end Sern
